import Mathlib

/-!
Verification development for the audio-analysis job-lifecycle orchestrator
(`services/audio-analyzer/analyzer.py`).

The store is modelled as a list of `Track` rows; each SQL `UPDATE ... WHERE`
is a per-row conditional transform mapped over the list.  Timestamps are
abstract integers (`NOW()` is passed explicitly).  The result columns that
are opaque to the orchestrator (bpm, key, mood fields, ...) are not
modelled; only the lifecycle columns the orchestrator reads or branches on
are kept.
-/

/-- The `analysisStatus` column.  The code's string values are
`'pending' / 'processing' / 'completed' / 'failed' / 'skipped'`. -/
inductive AnalysisStatus where
  | pending
  | processing
  | completed
  | failed
  | skipped
deriving DecidableEq, Repr

/-- One row of the `"Track"` table, restricted to the lifecycle columns the
orchestrator reads or writes.  `analysisRetryCount` is nullable in the
schema (the SQL wraps it in `COALESCE(..., 0)`), hence `Option Nat`. -/
structure Track where
  id : String
  filePath : String
  fileModified : Int
  analysisStatus : AnalysisStatus
  analysisError : Option String
  analysisRetryCount : Option Nat
  updatedAt : Int
deriving DecidableEq, Repr

/-- Python's `error[:500]` slice (by characters). -/
def truncate500 (s : String) : String :=
  String.mk (s.data.take 500)

/-- Row transform of `_save_failed` (`analyzer.py:1425-1484`): on the matching
id, `permanent=True` writes `skipped` with `analysisRetryCount = MAX_RETRIES`,
`permanent=False` writes `failed` incrementing `COALESCE(count,0)` by one;
both truncate the message to 500 characters and stamp `updatedAt`. -/
def rowSaveFailed (maxRetries : Nat) (trackId error : String) (permanent : Bool)
    (now : Int) (t : Track) : Track :=
  if t.id = trackId then
    if permanent then
      { t with analysisStatus := .skipped
               analysisError := some (truncate500 error)
               analysisRetryCount := some maxRetries
               updatedAt := now }
    else
      { t with analysisStatus := .failed
               analysisError := some (truncate500 error)
               analysisRetryCount := some (t.analysisRetryCount.getD 0 + 1)
               updatedAt := now }
  else t

/-- `_save_failed`: the `UPDATE "Track" ... WHERE id = %s` statement applied
to the whole table. -/
def saveFailed (maxRetries : Nat) (trackId error : String) (permanent : Bool)
    (now : Int) (db : List Track) : List Track :=
  db.map (rowSaveFailed maxRetries trackId error permanent now)

/-- The retry count the non-permanent branch of `_save_failed` reads back via
`RETURNING "analysisRetryCount"` (`0` when no row matched, mirroring
`result["analysisRetryCount"] if result else 0`). -/
def saveFailedReturnedCount (trackId : String) (db : List Track) : Nat :=
  match db.find? (fun t => t.id == trackId) with
  | some t => t.analysisRetryCount.getD 0 + 1
  | none => 0

/-- Row transform of `_save_results` (`analyzer.py:1347-1423`), restricted to
the lifecycle columns: the matching id becomes `completed` with
`analysisError = NULL` and a fresh `updatedAt`; the opaque feature columns
and `analysisVersion` / `analyzedAt` are not modelled. -/
def rowSaveResults (trackId : String) (now : Int) (t : Track) : Track :=
  if t.id = trackId then
    { t with analysisStatus := .completed
             analysisError := none
             updatedAt := now }
  else t

/-- `_save_results` applied to the whole table. -/
def saveResults (trackId : String) (now : Int) (db : List Track) : List Track :=
  db.map (rowSaveResults trackId now)

/-- Row transform of `_cleanup_stale_processing` (`analyzer.py:956-986`):
`processing` rows whose `updatedAt` is older than `now - staleWindow` go back
to `pending` with a fresh `updatedAt` (the SQL does not touch
`analysisError` or the retry count). -/
def rowCleanupStale (staleWindow now : Int) (t : Track) : Track :=
  if t.analysisStatus = .processing ∧ t.updatedAt < now - staleWindow then
    { t with analysisStatus := .pending, updatedAt := now }
  else t

/-- `_cleanup_stale_processing`: the conditional update together with the
count of rows it returned (`len(cursor.fetchall())`). -/
def cleanupStaleProcessing (staleWindow now : Int) (db : List Track) :
    List Track × Nat :=
  (db.map (rowCleanupStale staleWindow now),
   (db.filter (fun t =>
      t.analysisStatus == .processing && t.updatedAt < now - staleWindow)).length)

/-- Row transform of `_retry_failed_tracks` (`analyzer.py:988-1041`):
`failed` rows with `COALESCE(count,0) < MAX_RETRIES` go back to `pending`,
clearing `analysisError` and stamping `updatedAt`. -/
def rowRetryFailed (maxRetries : Nat) (now : Int) (t : Track) : Track :=
  if t.analysisStatus = .failed ∧ t.analysisRetryCount.getD 0 < maxRetries then
    { t with analysisStatus := .pending
             analysisError := none
             updatedAt := now }
  else t

/-- `_retry_failed_tracks`: conditional update plus the list of ids the SQL
`RETURNING id` produced. -/
def retryFailedTracks (maxRetries : Nat) (now : Int) (db : List Track) :
    List Track × List String :=
  (db.map (rowRetryFailed maxRetries now),
   ((db.filter (fun t =>
      t.analysisStatus == .failed &&
        t.analysisRetryCount.getD 0 < maxRetries)).map Track.id))

/-- Row transform of the claim step in `_process_tracks_parallel`
(`analyzer.py:1213-1224`): rows whose id is in the candidate list *and* whose
status is still `pending` become `processing`. -/
def rowClaim (ids : List String) (now : Int) (t : Track) : Track :=
  if t.id ∈ ids ∧ t.analysisStatus = .pending then
    { t with analysisStatus := .processing, updatedAt := now }
  else t

/-- The claim step: conditional update `pending → processing` over the
candidate ids, returning the ids that actually matched
(`RETURNING id`, collected into `valid_track_ids`). -/
def claimPending (ids : List String) (now : Int) (db : List Track) :
    List Track × List String :=
  (db.map (rowClaim ids now),
   ((db.filter (fun t =>
      t.id ∈ ids && t.analysisStatus == .pending)).map Track.id))

/-- The filter after the claim step (`analyzer.py:1233`):
`tracks = [t for t in tracks if t[0] in valid_track_ids]`. -/
def filterClaimed (tracks : List (String × String)) (valid : List String) :
    List (String × String) :=
  tracks.filter (fun t => t.1 ∈ valid)

/-- Insertion into a list kept sorted by `fileModified` descending. -/
def insertByModifiedDesc (t : Track) : List Track → List Track
  | [] => [t]
  | u :: us =>
    if u.fileModified ≤ t.fileModified then t :: u :: us
    else u :: insertByModifiedDesc t us

/-- `ORDER BY "fileModified" DESC` (ties in unspecified order, as in SQL). -/
def sortByModifiedDesc : List Track → List Track
  | [] => []
  | t :: ts => insertByModifiedDesc t (sortByModifiedDesc ts)

/-- The backlog query of `process_batch_parallel` (`analyzer.py:1168-1187`):
`SELECT id, "filePath" FROM "Track" WHERE "analysisStatus" = 'pending'
ORDER BY "fileModified" DESC LIMIT batchSize`, as job descriptors. -/
def fetchPendingBacklog (limit : Nat) (db : List Track) :
    List (String × String) :=
  (((sortByModifiedDesc
      (db.filter (fun t => t.analysisStatus == .pending))).take limit).map
    (fun t => (t.id, t.filePath)))

/-- The batch-intake logic of `process_batch_parallel` (`analyzer.py:1152-1189`):
drain up to `batchSize` descriptors from the push queue; the backlog query
runs *only* when that drain produced nothing (`if queued_jobs: ... return` —
a partially filled queue batch is dispatched as-is, never topped up). -/
def nextBatch (batchSize : Nat) (queue : List (String × String))
    (db : List Track) : List (String × String) :=
  let queued := queue.take batchSize
  if queued.isEmpty then fetchPendingBacklog batchSize db else queued

/-- Modelled from the spec: the spec's §4.2 `JobSource.nextBatch`, which —
unlike the code — tops a short, exhausted queue drain up with
`fetchPendingBacklog` rows up to the remaining count.  Kept solely for the
refinement comparison against `nextBatch`. -/
def nextBatchSpec (batchSize : Nat) (queue : List (String × String))
    (db : List Track) : List (String × String) :=
  let queued := queue.take batchSize
  if queued.length < batchSize ∧ (queue.drop batchSize).isEmpty then
    queued ++ fetchPendingBacklog (batchSize - queued.length) db
  else queued

/-- The batch-deadline computation in `_process_tracks_parallel`
(`analyzer.py:1255-1258`): `max(300, n * BASE_TRACK_TIMEOUT)` then
`min(_, MAX_TRACK_TIMEOUT * n)`. -/
def batchTimeout (baseTimeout maxTimeout n : Nat) : Nat :=
  min (max 300 (n * baseTimeout)) (maxTimeout * n)

/-- `clamp(x, lo, hi)` as the spec's deadline formula reads. -/
def clampSpec (x lo hi : Nat) : Nat :=
  max lo (min x hi)

/-!  The worker entry point `_analyze_track_in_process` (`analyzer.py:890-942`).
The filesystem and the analyzer are abstract capabilities; the steps that can
raise in Python (`os.path.getsize`, `analyzer.analyze`) return `Except`, and
the function's outer `try/except` catches everything and converts it into an
`'_error'` result dict. -/

/-- What `AudioAnalyzer.analyze` returns on normal return: a feature dict
that may itself carry an `'_error'` entry (e.g. `"Essentia library not
installed"`, `analyzer.py:361`) but never an `'_skip'` entry; the feature
payload is opaque to the orchestrator and not modelled. -/
structure AnalyzeDict where
  err : Option String
deriving DecidableEq, Repr

/-- The result dict `_analyze_track_in_process` hands to the dispatcher,
restricted to the keys the dispatcher branches on: `'_error'`, `'_skip'`,
and the `'_file_size_mb'` diagnostic (recorded here as the raw byte count;
the Python float division by 2^20 is a presentation detail). -/
structure ResultDict where
  err : Option String
  skip : Bool
  sizeBytes : Option Nat
deriving DecidableEq, Repr

/-- Python truthiness of `features.get("_error")`: a present, non-empty
string. -/
def hasError (d : ResultDict) : Bool :=
  match d.err with
  | some s => s != ""
  | none => false

/-- Worker configuration: `MUSIC_PATH`, `DOWNLOAD_PATH`, `MAX_FILE_SIZE_MB`
(`analyzer.py:78-94`). -/
structure WorkerConfig where
  musicPath : String
  downloadPath : String
  maxFileSizeMb : Nat
deriving Repr

/-- The worker's environment: path existence, file size (can raise), and the
analyzer call (can raise). -/
structure WorkerEnv where
  pathExists : String → Bool
  getSize : String → Except String Nat
  analyze : String → Except String AnalyzeDict

/-- `os.path.join` for the POSIX paths this service uses: an absolute second
component overrides the first. -/
def joinPath (a b : String) : String :=
  if b.startsWith "/" then b
  else if a = "" then b
  else if a.endsWith "/" then a ++ b
  else a ++ "/" ++ b

/-- Path resolution in `_analyze_track_in_process` (`analyzer.py:904-911`):
normalise backslashes, join with `MUSIC_PATH`, and fall back to
`DOWNLOAD_PATH` when the primary is missing, `DOWNLOAD_PATH` is non-empty
(Python truthiness) and the fallback exists. -/
def resolvedPath (env : WorkerEnv) (cfg : WorkerConfig) (filePath : String) :
    String :=
  let normalized := filePath.replace "\\" "/"
  let fullPath := joinPath cfg.musicPath normalized
  if !env.pathExists fullPath && cfg.downloadPath != "" then
    let fallbackPath := joinPath cfg.downloadPath normalized
    if env.pathExists fallbackPath then fallbackPath else fullPath
  else fullPath

/-- The oversized-file message
`f"File too large ({file_size_mb:.1f}MB > {MAX_FILE_SIZE_MB}MB limit)"`,
with the one-decimal float rendering of the size abstracted to the raw byte
count (no claim inspects the digits). -/
def oversizedMsg (bytes maxMb : Nat) : String :=
  "File too large (" ++ toString bytes ++ " bytes > " ++ toString maxMb ++
    "MB limit)"

/-- The oversize test `MAX_FILE_SIZE_MB > 0 and file_size_mb > MAX_FILE_SIZE_MB`
with `file_size_mb = bytes / 2^20` compared exactly:
`bytes / 2^20 > maxMb ↔ bytes > maxMb * 2^20`. -/
def isOversized (maxMb bytes : Nat) : Bool :=
  0 < maxMb && maxMb * 1048576 < bytes

/-- The body of `_analyze_track_in_process` inside the `try:` — the part that
can raise.  `.error` is a raised exception, caught by the wrapper below. -/
def analyzeTrackBody (env : WorkerEnv) (cfg : WorkerConfig)
    (filePath : String) : Except String ResultDict :=
  let fullPath := resolvedPath env cfg filePath
  if !env.pathExists fullPath then
    .ok { err := some "File not found", skip := false, sizeBytes := none }
  else
    match env.getSize fullPath with
    | .error e => .error e
    | .ok bytes =>
      if isOversized cfg.maxFileSizeMb bytes then
        .ok { err := some (oversizedMsg bytes cfg.maxFileSizeMb)
              skip := true
              sizeBytes := some bytes }
      else
        match env.analyze fullPath with
        | .error e => .error e
        | .ok a => .ok { err := a.err, skip := false, sizeBytes := some bytes }

/-- `_analyze_track_in_process` (`analyzer.py:890-942`): always returns a
`(track_id, file_path, dict)` triple; any exception from the body becomes
`{"_error": str(e)}`. -/
def analyzeTrackInProcess (env : WorkerEnv) (cfg : WorkerConfig)
    (trackId filePath : String) : String × String × ResultDict :=
  match analyzeTrackBody env cfg filePath with
  | .ok d => (trackId, filePath, d)
  | .error e =>
    (trackId, filePath, { err := some e, skip := false, sizeBytes := none })

/-!  The dispatch/collect loop of `_process_tracks_parallel`
(`analyzer.py:1245-1332`).  Each submitted future resolves, in this
sequential embedding, to one of four outcomes: it completed and
`future.result(timeout=MAX_TRACK_TIMEOUT)` yielded a dict; the per-item
`result` wait raised `TimeoutError`; `result` raised some other exception;
or the future was still not done when `as_completed`'s batch deadline
fired. -/

inductive WorkerOutcome where
  | finished (d : ResultDict)
  | itemTimeout
  | poolError (msg : String)
  | notDone
deriving DecidableEq, Repr

/-- `sub` is a starting segment of `l`. -/
def startsWithList (sub l : List Char) : Bool :=
  match sub, l with
  | [], _ => true
  | _ :: _, [] => false
  | a :: as, b :: bs => a == b && startsWithList as bs

/-- `sub` occurs somewhere in `l`. -/
def containsSubList (sub l : List Char) : Bool :=
  match l with
  | [] => startsWithList sub []
  | _ :: cs => startsWithList sub l || containsSubList sub cs

/-- `s` contains `sub` (Python's `in` on strings). -/
def containsSubstr (s sub : String) : Bool :=
  containsSubList sub.data s.data

/-- `s.lower()` (character-wise, as for the ASCII signatures tested). -/
def toLowerStr (s : String) : String :=
  String.mk (s.data.map Char.toLower)

/-- The memory-error signature test (`analyzer.py:1310-1313`):
`"MemoryError" in error_str or "out of memory" in error_str.lower()`. -/
def isMemoryError (s : String) : Bool :=
  containsSubstr s "MemoryError" || containsSubstr (toLowerStr s) "out of memory"

/-- One iteration of the `as_completed` loop (`analyzer.py:1261-1318`) as a
store update for the future's track. -/
def processOutcome (maxRetries : Nat) (now : Int) (trackId : String)
    (o : WorkerOutcome) (db : List Track) : List Track :=
  match o with
  | .finished d =>
    if hasError d then
      saveFailed maxRetries trackId (d.err.getD "") d.skip now db
    else
      saveResults trackId now db
  | .itemTimeout =>
    saveFailed maxRetries trackId "Analysis timeout (file too large to process)"
      true now db
  | .poolError msg =>
    saveFailed maxRetries trackId ("Error: " ++ msg) (isMemoryError msg) now db
  | .notDone => db

/-- The batch-timeout sweep (`analyzer.py:1320-1332`) for one future:
`if not future.done(): self._save_failed(..., "Batch timeout (file too
large)", permanent=True)`. -/
def sweepOutcome (maxRetries : Nat) (now : Int) (trackId : String)
    (o : WorkerOutcome) (db : List Track) : List Track :=
  if o = .notDone then
    saveFailed maxRetries trackId "Batch timeout (file too large)" true now db
  else db

/-- The whole collect phase of `_process_tracks_parallel`: the
`as_completed` loop over every future (an outcome of `.notDone` means the
batch deadline fired before that future completed, so the loop body never
ran for it), followed by the batch-timeout sweep over the same futures. -/
def processBatch (maxRetries : Nat) (now : Int)
    (outs : List (String × WorkerOutcome)) (db : List Track) : List Track :=
  let afterLoop :=
    outs.foldl (fun acc p => processOutcome maxRetries now p.1 p.2 acc) db
  outs.foldl (fun acc p => sweepOutcome maxRetries now p.1 p.2 acc) afterLoop

/-!  Per-row characterization of the collect phase.  Every store write of the
dispatcher is a map of a per-row conditional transform, so the whole collect
phase is a map of the composition of those transforms, and on a table whose
outcome ids are distinct each row is touched by at most one transform. -/

/-- Per-row version of `processOutcome`. -/
def rowProcessOutcome (maxRetries : Nat) (now : Int) (trackId : String)
    (o : WorkerOutcome) (t : Track) : Track :=
  match o with
  | .finished d =>
    if hasError d then
      rowSaveFailed maxRetries trackId (d.err.getD "") d.skip now t
    else
      rowSaveResults trackId now t
  | .itemTimeout =>
    rowSaveFailed maxRetries trackId
      "Analysis timeout (file too large to process)" true now t
  | .poolError msg =>
    rowSaveFailed maxRetries trackId ("Error: " ++ msg) (isMemoryError msg)
      now t
  | .notDone => t

/-- Per-row version of `sweepOutcome`. -/
def rowSweep (maxRetries : Nat) (now : Int) (trackId : String)
    (o : WorkerOutcome) (t : Track) : Track :=
  if o = .notDone then
    rowSaveFailed maxRetries trackId "Batch timeout (file too large)" true now t
  else t

/-- The net per-row effect of the collect phase on the row a given outcome
belongs to: a still-outstanding future gets the batch-timeout permanent
skip, every other outcome gets its loop-iteration effect. -/
def rowFinalOutcome (maxRetries : Nat) (now : Int) (o : WorkerOutcome)
    (t : Track) : Track :=
  match o with
  | .notDone =>
    rowSaveFailed maxRetries t.id "Batch timeout (file too large)" true now t
  | _ => rowProcessOutcome maxRetries now t.id o t

/-- Sequential composition of row transforms. -/
def applyOps (ops : List (Track → Track)) (t : Track) : Track :=
  ops.foldl (fun x f => f x) t

theorem applyOps_nil (t : Track) : applyOps [] t = t := rfl

theorem applyOps_cons (f : Track → Track) (ops : List (Track → Track))
    (t : Track) : applyOps (f :: ops) t = applyOps ops (f t) := rfl

theorem applyOps_append (l₁ l₂ : List (Track → Track)) (t : Track) :
    applyOps (l₁ ++ l₂) t = applyOps l₂ (applyOps l₁ t) := by
  simp [applyOps, List.foldl_append]

theorem foldl_map_comm (ops : List (Track → Track)) (db : List Track) :
    ops.foldl (fun d f => d.map f) db = db.map (applyOps ops) := by
  induction ops generalizing db with
  | nil => exact (List.map_id'' (fun t => rfl) db).symm
  | cons f rest ih =>
    simp only [List.foldl_cons]
    rw [ih, List.map_map]
    rfl

theorem processOutcome_eq_map (m : Nat) (now : Int) (x : String)
    (o : WorkerOutcome) (db : List Track) :
    processOutcome m now x o db = db.map (rowProcessOutcome m now x o) := by
  cases o with
  | finished d =>
    by_cases h : hasError d
    · simp [processOutcome, rowProcessOutcome, saveFailed, h]
    · simp [processOutcome, rowProcessOutcome, saveResults, h]
  | itemTimeout => simp [processOutcome, rowProcessOutcome, saveFailed]
  | poolError msg => simp [processOutcome, rowProcessOutcome, saveFailed]
  | notDone => exact (List.map_id'' (fun t => rfl) db).symm

theorem sweepOutcome_eq_map (m : Nat) (now : Int) (x : String)
    (o : WorkerOutcome) (db : List Track) :
    sweepOutcome m now x o db = db.map (rowSweep m now x o) := by
  cases o with
  | notDone => simp [sweepOutcome, rowSweep, saveFailed]
  | finished d =>
    simp only [sweepOutcome, rowSweep]
    rw [if_neg (by intro h; exact WorkerOutcome.noConfusion h)]
    exact (List.map_id'' (fun t => by simp [rowSweep]) db).symm
  | itemTimeout =>
    simp only [sweepOutcome, rowSweep]
    rw [if_neg (by intro h; exact WorkerOutcome.noConfusion h)]
    exact (List.map_id'' (fun t => by simp [rowSweep]) db).symm
  | poolError msg =>
    simp only [sweepOutcome, rowSweep]
    rw [if_neg (by intro h; exact WorkerOutcome.noConfusion h)]
    exact (List.map_id'' (fun t => by simp [rowSweep]) db).symm

/-- The row transforms the collect phase applies, in order. -/
def outcomeOps (m : Nat) (now : Int) (outs : List (String × WorkerOutcome)) :
    List (Track → Track) :=
  outs.map (fun p => rowProcessOutcome m now p.1 p.2) ++
    outs.map (fun p => rowSweep m now p.1 p.2)

theorem processBatch_eq_map (m : Nat) (now : Int)
    (outs : List (String × WorkerOutcome)) (db : List Track) :
    processBatch m now outs db = db.map (applyOps (outcomeOps m now outs)) := by
  unfold processBatch
  simp only [processOutcome_eq_map, sweepOutcome_eq_map]
  rw [show (fun (acc : List Track) (p : String × WorkerOutcome) =>
        acc.map (rowProcessOutcome m now p.1 p.2))
      = (fun acc p => (fun d f => List.map f d) acc
          ((fun p : String × WorkerOutcome =>
            rowProcessOutcome m now p.1 p.2) p)) from rfl]
  rw [show (fun (acc : List Track) (p : String × WorkerOutcome) =>
        acc.map (rowSweep m now p.1 p.2))
      = (fun acc p => (fun d f => List.map f d) acc
          ((fun p : String × WorkerOutcome => rowSweep m now p.1 p.2) p))
      from rfl]
  rw [← List.foldl_map (fun p : String × WorkerOutcome =>
        rowProcessOutcome m now p.1 p.2) (fun d f => List.map f d)]
  rw [← List.foldl_map (fun p : String × WorkerOutcome =>
        rowSweep m now p.1 p.2) (fun d f => List.map f d)]
  rw [foldl_map_comm, foldl_map_comm, List.map_map]
  unfold outcomeOps
  congr 1
  funext t
  rw [applyOps_append]
  rfl

theorem rowSaveFailed_id (m : Nat) (x e : String) (p : Bool) (now : Int)
    (t : Track) : (rowSaveFailed m x e p now t).id = t.id := by
  unfold rowSaveFailed
  split
  · split <;> rfl
  · rfl

theorem rowSaveResults_id (x : String) (now : Int) (t : Track) :
    (rowSaveResults x now t).id = t.id := by
  unfold rowSaveResults
  split <;> rfl

theorem rowProcessOutcome_id (m : Nat) (now : Int) (x : String)
    (o : WorkerOutcome) (t : Track) :
    (rowProcessOutcome m now x o t).id = t.id := by
  cases o with
  | finished d =>
    by_cases h : hasError d
    · simp [rowProcessOutcome, h, rowSaveFailed_id]
    · simp [rowProcessOutcome, h, rowSaveResults_id]
  | itemTimeout => simp [rowProcessOutcome, rowSaveFailed_id]
  | poolError msg => simp [rowProcessOutcome, rowSaveFailed_id]
  | notDone => rfl

theorem rowSweep_id (m : Nat) (now : Int) (x : String) (o : WorkerOutcome)
    (t : Track) : (rowSweep m now x o t).id = t.id := by
  unfold rowSweep
  split
  · exact rowSaveFailed_id ..
  · rfl

theorem rowSaveFailed_ne (m : Nat) (x e : String) (p : Bool) (now : Int)
    (t : Track) (h : t.id ≠ x) : rowSaveFailed m x e p now t = t := by
  unfold rowSaveFailed
  rw [if_neg h]

theorem rowSaveResults_ne (x : String) (now : Int) (t : Track)
    (h : t.id ≠ x) : rowSaveResults x now t = t := by
  unfold rowSaveResults
  rw [if_neg h]

theorem rowProcessOutcome_ne (m : Nat) (now : Int) (x : String)
    (o : WorkerOutcome) (t : Track) (h : t.id ≠ x) :
    rowProcessOutcome m now x o t = t := by
  cases o with
  | finished d =>
    by_cases hd : hasError d
    · simp [rowProcessOutcome, hd, rowSaveFailed_ne _ _ _ _ _ _ h]
    · simp [rowProcessOutcome, hd, rowSaveResults_ne _ _ _ h]
  | itemTimeout => simp [rowProcessOutcome, rowSaveFailed_ne _ _ _ _ _ _ h]
  | poolError msg => simp [rowProcessOutcome, rowSaveFailed_ne _ _ _ _ _ _ h]
  | notDone => rfl

theorem rowSweep_ne (m : Nat) (now : Int) (x : String) (o : WorkerOutcome)
    (t : Track) (h : t.id ≠ x) : rowSweep m now x o t = t := by
  unfold rowSweep
  split
  · exact rowSaveFailed_ne _ _ _ _ _ _ h
  · rfl

/-- A list of row transforms none of whose target ids matches the row leaves
the row unchanged. -/
theorem applyOps_not_mem (rowf : String → WorkerOutcome → Track → Track)
    (hne : ∀ x o t, t.id ≠ x → rowf x o t = t)
    (outs : List (String × WorkerOutcome)) (u : Track)
    (h : ∀ p ∈ outs, p.1 ≠ u.id) :
    applyOps (outs.map (fun p => rowf p.1 p.2)) u = u := by
  induction outs with
  | nil => rfl
  | cons p rest ih =>
    simp only [List.map_cons, applyOps_cons]
    rw [hne p.1 p.2 u (fun hh => h p (List.mem_cons_self ..) hh.symm)]
    exact ih (fun q hq => h q (List.mem_cons_of_mem _ hq))

/-- On a batch with distinct ids, a phase made of one row transform per
outcome acts on each row as the (at most one) transform keyed by the row's
id. -/
theorem applyOps_lookup (rowf : String → WorkerOutcome → Track → Track)
    (hid : ∀ x o t, (rowf x o t).id = t.id)
    (hne : ∀ x o t, t.id ≠ x → rowf x o t = t)
    (outs : List (String × WorkerOutcome))
    (hnd : (outs.map Prod.fst).Nodup) (t : Track) :
    applyOps (outs.map (fun p => rowf p.1 p.2)) t =
      match List.lookup t.id outs with
      | some o => rowf t.id o t
      | none => t := by
  induction outs with
  | nil => rfl
  | cons p rest ih =>
    rw [List.map_cons] at hnd
    obtain ⟨hp, hrest⟩ := List.nodup_cons.mp hnd
    simp only [List.map_cons, applyOps_cons]
    by_cases hx : t.id = p.1
    · have hlook : List.lookup t.id (p :: rest) = some p.2 := by
        obtain ⟨p1, p2⟩ := p
        simp only [List.lookup_cons]
        rw [show (t.id == p1) = true from beq_iff_eq.mpr hx]
      rw [hlook]
      have hrowid : (rowf p.1 p.2 t).id = t.id := hid ..
      rw [applyOps_not_mem rowf hne rest (rowf p.1 p.2 t)
        (fun q hq => by
          rw [hrowid, hx]
          intro hq1
          exact hp (hq1 ▸ List.mem_map_of_mem Prod.fst hq))]
      rw [hx]
    · have hlook : List.lookup t.id (p :: rest) = List.lookup t.id rest := by
        obtain ⟨p1, p2⟩ := p
        simp only [List.lookup_cons]
        rw [show (t.id == p1) = false from beq_eq_false_iff_ne.mpr hx]
      rw [hlook, hne p.1 p.2 t hx]
      exact ih hrest

/-- The net per-row action of the whole collect phase (loop then sweep). -/
theorem applyOps_outcomeOps (m : Nat) (now : Int)
    (outs : List (String × WorkerOutcome))
    (hnd : (outs.map Prod.fst).Nodup) (t : Track) :
    applyOps (outcomeOps m now outs) t =
      match List.lookup t.id outs with
      | some o => rowFinalOutcome m now o t
      | none => t := by
  unfold outcomeOps
  rw [applyOps_append]
  rw [applyOps_lookup (rowProcessOutcome m now) (rowProcessOutcome_id m now)
    (rowProcessOutcome_ne m now) outs hnd t]
  cases hl : List.lookup t.id outs with
  | none =>
    simp only [hl]
    rw [applyOps_lookup (rowSweep m now) (rowSweep_id m now)
      (rowSweep_ne m now) outs hnd t, hl]
  | some o =>
    simp only [hl]
    have hid1 : (rowProcessOutcome m now t.id o t).id = t.id :=
      rowProcessOutcome_id ..
    rw [applyOps_lookup (rowSweep m now) (rowSweep_id m now)
      (rowSweep_ne m now) outs hnd (rowProcessOutcome m now t.id o t)]
    rw [hid1, hl]
    cases o with
    | finished d => rfl
    | itemTimeout => rfl
    | poolError msg => rfl
    | notDone =>
      simp [rowProcessOutcome, rowSweep, rowFinalOutcome]

/-- The collect phase, row by row: on a batch whose outcome ids are
distinct, each row whose id carries an outcome receives exactly that
outcome's effect, every other row is untouched. -/
theorem processBatch_pointwise (m : Nat) (now : Int)
    (outs : List (String × WorkerOutcome)) (db : List Track)
    (hnd : (outs.map Prod.fst).Nodup) :
    processBatch m now outs db =
      db.map (fun t =>
        match List.lookup t.id outs with
        | some o => rowFinalOutcome m now o t
        | none => t) := by
  rw [processBatch_eq_map]
  exact List.map_congr_left (fun t _ => applyOps_outcomeOps m now outs hnd t)

/-!  ## Claim theorems -/

/-- C6: for every batch of size `n ≥ 1` (and any per-item timeouts with
`maxTimeout ≥ 300`, which includes the defaults 120/600), the batch deadline
computed by `_process_tracks_parallel` equals
`clamp(n * baseTimeout, 300, maxTimeout * n)`; in particular with
base 120 and max 600 it is 480 for `n = 4`, 300 for `n = 1` and 6000 for
`n = 50`. -/
theorem batchTimeout_eq_clamp (base maxT n : Nat) (hn : 1 ≤ n)
    (hmax : 300 ≤ maxT) :
    batchTimeout base maxT n = clampSpec (n * base) 300 (maxT * n) ∧
    batchTimeout 120 600 4 = 480 ∧
    batchTimeout 120 600 1 = 300 ∧
    batchTimeout 120 600 50 = 6000 := by
  refine ⟨?_, by decide, by decide, by decide⟩
  have h300 : 300 ≤ maxT * n :=
    le_trans hmax (Nat.le_mul_of_pos_right maxT hn)
  unfold batchTimeout clampSpec
  generalize n * base = a
  generalize maxT * n = b at h300 ⊢
  omega

theorem batchTimeout_eq_clamp_witness :
    batchTimeout 120 600 4 = clampSpec (4 * 120) 300 (600 * 4) :=
  (batchTimeout_eq_clamp 120 600 4 (by decide) (by decide)).1

/-- C1 (counterexample): with 3 queued descriptors, 2 pending backlog rows
and batch limit 4, `process_batch_parallel` dispatches exactly the 3 queued
descriptors — it does *not* top the batch up with a backlog row as the claim
(and the spec's JobSource) states, because the backlog query only runs when
the queue drain yields nothing. -/
theorem nextBatch_no_topup_counterexample :
    nextBatch 4 [("q1", "a.mp3"), ("q2", "b.mp3"), ("q3", "c.mp3")]
        [⟨"p1", "d.mp3", 10, .pending, none, some 0, 0⟩,
         ⟨"p2", "e.mp3", 9, .pending, none, some 0, 0⟩]
      = [("q1", "a.mp3"), ("q2", "b.mp3"), ("q3", "c.mp3")] ∧
    (nextBatchSpec 4 [("q1", "a.mp3"), ("q2", "b.mp3"), ("q3", "c.mp3")]
        [⟨"p1", "d.mp3", 10, .pending, none, some 0, 0⟩,
         ⟨"p2", "e.mp3", 9, .pending, none, some 0, 0⟩]).length = 4 ∧
    (nextBatch 4 [("q1", "a.mp3"), ("q2", "b.mp3"), ("q3", "c.mp3")]
        [⟨"p1", "d.mp3", 10, .pending, none, some 0, 0⟩,
         ⟨"p2", "e.mp3", 9, .pending, none, some 0, 0⟩]).length ≠ 4 := by
  refine ⟨by decide, by decide, by decide⟩

/-- C1 (amended): when the queue drain yields at least one descriptor the
dispatched batch is exactly those queued descriptors (never topped up from
the backlog); the backlog is consulted only when the drain yields nothing;
and the batch never exceeds the limit. -/
theorem nextBatch_drain_or_backlog (batchSize : Nat)
    (queue : List (String × String)) (db : List Track) :
    (queue.take batchSize ≠ [] →
      nextBatch batchSize queue db = queue.take batchSize) ∧
    (queue.take batchSize = [] →
      nextBatch batchSize queue db = fetchPendingBacklog batchSize db) ∧
    (nextBatch batchSize queue db).length ≤ batchSize := by
  refine ⟨fun h => ?_, fun h => ?_, ?_⟩
  · simp only [nextBatch]
    rw [if_neg (by simpa [List.isEmpty_iff] using h)]
  · simp only [nextBatch]
    rw [if_pos (by simpa [List.isEmpty_iff] using h)]
  · by_cases h : queue.take batchSize = []
    · simp only [nextBatch]
      rw [if_pos (by simpa [List.isEmpty_iff] using h)]
      simp only [fetchPendingBacklog, List.length_map]
      exact le_trans (List.length_take_le ..) (le_refl _)
    · simp only [nextBatch]
      rw [if_neg (by simpa [List.isEmpty_iff] using h)]
      exact List.length_take_le ..

theorem nextBatch_drain_or_backlog_witness :
    nextBatch 4 [("q1", "a.mp3")] [] = [("q1", "a.mp3")] :=
  (nextBatch_drain_or_backlog 4 [("q1", "a.mp3")] []).1 (by decide)

/-- C4: `_save_failed` with `permanent=True` sets the matching row to
`skipped`, forces `analysisRetryCount` to exactly `maxRetries`, and stores
the message truncated to 500 characters; with `permanent=False` it sets
`failed`, increments `COALESCE(analysisRetryCount, 0)` by exactly one,
replaces the previous message (truncated), and the `RETURNING` clause hands
back the post-increment count of the matched row.  Non-matching rows are
untouched. -/
theorem saveFailed_spec (m : Nat) (x e : String) (now : Int)
    (db : List Track) :
    (saveFailed m x e true now db = db.map (rowSaveFailed m x e true now)) ∧
    (∀ t : Track, t.id = x → rowSaveFailed m x e true now t =
      { t with analysisStatus := .skipped
               analysisError := some (truncate500 e)
               analysisRetryCount := some m
               updatedAt := now }) ∧
    (∀ t : Track, t.id = x → rowSaveFailed m x e false now t =
      { t with analysisStatus := .failed
               analysisError := some (truncate500 e)
               analysisRetryCount := some (t.analysisRetryCount.getD 0 + 1)
               updatedAt := now }) ∧
    (∀ (t : Track) (p : Bool), t.id ≠ x → rowSaveFailed m x e p now t = t) ∧
    ((truncate500 e).length ≤ 500) ∧
    (∀ t : Track, db.find? (fun u => u.id == x) = some t →
      saveFailedReturnedCount x db = t.analysisRetryCount.getD 0 + 1) := by
  refine ⟨rfl, ?_, ?_, ?_, ?_, ?_⟩
  · intro t ht
    unfold rowSaveFailed
    rw [if_pos ht, if_pos rfl]
  · intro t ht
    unfold rowSaveFailed
    rw [if_pos ht]
    rfl
  · intro t p ht
    exact rowSaveFailed_ne m x e p now t ht
  · simp only [truncate500, String.length, List.length_take]
    omega
  · intro t ht
    simp only [saveFailedReturnedCount, ht]

theorem saveFailed_spec_witness :
    rowSaveFailed 3 "X" "boom" true 5 ⟨"X", "f", 0, .processing, none, some 1, 2⟩
      = ⟨"X", "f", 0, .skipped, some (truncate500 "boom"), some 3, 5⟩ :=
  (saveFailed_spec 3 "X" "boom" 5 []).2.1 _ rfl

/-- C9: `_cleanup_stale_processing` transitions to `pending` exactly the rows
that are `processing` with `updatedAt` older than `now - staleWindow`, and is
idempotent: run a second time immediately (same `now`) it changes nothing
and reclaims zero rows. -/
theorem cleanupStale_spec (w now : Int) (db : List Track) :
    ((cleanupStaleProcessing w now db).1 = db.map (rowCleanupStale w now)) ∧
    (∀ t : Track, t.analysisStatus = .processing → t.updatedAt < now - w →
      rowCleanupStale w now t =
        { t with analysisStatus := .pending, updatedAt := now }) ∧
    (∀ t : Track, ¬(t.analysisStatus = .processing ∧ t.updatedAt < now - w) →
      rowCleanupStale w now t = t) ∧
    ((cleanupStaleProcessing w now (cleanupStaleProcessing w now db).1).1 =
      (cleanupStaleProcessing w now db).1) ∧
    ((cleanupStaleProcessing w now (cleanupStaleProcessing w now db).1).2 = 0) := by
  have hrow : ∀ t : Track,
      rowCleanupStale w now (rowCleanupStale w now t) = rowCleanupStale w now t := by
    intro t
    unfold rowCleanupStale
    split
    · rw [if_neg]
      intro hc
      exact absurd hc.1 (by simp)
    · rfl
  have hnotstale : ∀ t : Track,
      ((rowCleanupStale w now t).analysisStatus == AnalysisStatus.processing &&
        decide ((rowCleanupStale w now t).updatedAt < now - w)) = false := by
    intro t
    unfold rowCleanupStale
    split
    · next hc => simp
    · next hc =>
      rcases Decidable.em (t.analysisStatus = .processing) with hs | hs
      · have : ¬ t.updatedAt < now - w := fun hlt => hc ⟨hs, hlt⟩
        simp [this]
      · simp [hs]
  refine ⟨rfl, ?_, ?_, ?_, ?_⟩
  · intro t h1 h2
    unfold rowCleanupStale
    rw [if_pos ⟨h1, h2⟩]
  · intro t h
    unfold rowCleanupStale
    rw [if_neg h]
  · simp only [cleanupStaleProcessing, List.map_map]
    exact List.map_congr_left (fun t _ => hrow t)
  · simp only [cleanupStaleProcessing]
    rw [List.length_eq_zero, List.filter_eq_nil_iff]
    intro a ha
    obtain ⟨t, _, rfl⟩ := List.mem_map.mp ha
    simp [hnotstale t]

theorem cleanupStale_spec_witness :
    rowCleanupStale 10 100 ⟨"X", "f", 0, .processing, none, some 0, 5⟩
      = ⟨"X", "f", 0, .pending, none, some 0, 100⟩ :=
  (cleanupStale_spec 10 100 []).2.1 _ rfl (by decide)

/-- Membership in the id set `claimPending` returns. -/
theorem claimPending_mem (ids : List String) (now : Int) (db : List Track)
    (x : String) :
    x ∈ (claimPending ids now db).2 ↔
      ∃ t ∈ db, t.id = x ∧ x ∈ ids ∧ t.analysisStatus = .pending := by
  simp only [claimPending, List.mem_map, List.mem_filter, Bool.and_eq_true,
    decide_eq_true_eq, beq_iff_eq]
  constructor
  · rintro ⟨t, ⟨htdb, htids, htp⟩, rfl⟩
    exact ⟨t, htdb, rfl, htids, htp⟩
  · rintro ⟨t, htdb, rfl, htids, htp⟩
    exact ⟨t, ⟨htdb, htids, htp⟩, rfl⟩

theorem rowClaim_not_matched (ids : List String) (now : Int) (t : Track)
    (h : ¬(t.id ∈ ids ∧ t.analysisStatus = .pending)) :
    rowClaim ids now t = t := by
  unfold rowClaim
  rw [if_neg h]

/-- C3: the claim step transitions to `processing` exactly the candidate ids
whose row is still `pending` and returns exactly that subset; ids not
returned are dropped from the working batch by the filter (so never
submitted); an id claimed once cannot be claimed again by a later call on
the resulting store; and an id whose rows are all non-`pending`
(completed / failed / skipped / already processing) is never claimed from a
stale queue entry. -/
theorem claimPending_spec (ids : List String) (now : Int) (db : List Track) :
    (∀ x, x ∈ (claimPending ids now db).2 ↔
      ∃ t ∈ db, t.id = x ∧ x ∈ ids ∧ t.analysisStatus = .pending) ∧
    ((claimPending ids now db).1 = db.map (rowClaim ids now)) ∧
    (∀ t : Track, t.id ∈ ids → t.analysisStatus = .pending →
      rowClaim ids now t =
        { t with analysisStatus := .processing, updatedAt := now }) ∧
    (∀ t : Track, ¬(t.id ∈ ids ∧ t.analysisStatus = .pending) →
      rowClaim ids now t = t) ∧
    (∀ (tracks : List (String × String)) (p : String × String),
      p ∈ filterClaimed tracks (claimPending ids now db).2 ↔
        p ∈ tracks ∧ p.1 ∈ (claimPending ids now db).2) ∧
    (∀ (x : String) (ids2 : List String) (now2 : Int),
      x ∈ (claimPending ids now db).2 →
      x ∉ (claimPending ids2 now2 (claimPending ids now db).1).2) ∧
    (∀ x : String, (∀ t ∈ db, t.id = x → t.analysisStatus ≠ .pending) →
      x ∉ (claimPending ids now db).2) := by
  refine ⟨claimPending_mem ids now db, rfl, ?_, rowClaim_not_matched ids now,
    ?_, ?_, ?_⟩
  · intro t h1 h2
    unfold rowClaim
    rw [if_pos ⟨h1, h2⟩]
  · intro tracks p
    simp [filterClaimed, List.mem_filter]
  · intro x ids2 now2 hx hx2
    obtain ⟨t, htdb, rfl, htids, htp⟩ := (claimPending_mem ids now db x).mp hx
    obtain ⟨u, hudb, huid, _, hup⟩ :=
      (claimPending_mem ids2 now2 _ _).mp hx2
    obtain ⟨v, hvdb, rfl⟩ := List.mem_map.mp hudb
    by_cases hc : v.id ∈ ids ∧ v.analysisStatus = .pending
    · unfold rowClaim at hup
      rw [if_pos hc] at hup
      exact absurd hup (by simp)
    · rw [rowClaim_not_matched ids now v hc] at hup huid
      exact hc ⟨huid ▸ htids, hup⟩
  · intro x hall hx
    obtain ⟨t, htdb, rfl, _, htp⟩ := (claimPending_mem ids now db x).mp hx
    exact hall t htdb rfl htp

theorem claimPending_spec_witness :
    rowClaim ["X"] 1 ⟨"X", "f", 0, .pending, none, some 0, 0⟩
      = ⟨"X", "f", 0, .processing, none, some 0, 1⟩ :=
  (claimPending_spec ["X"] 1 []).2.2.1 _ (by decide) rfl

/-- On a batch with distinct ids, the outcome keyed by an id is what
`List.lookup` finds. -/
theorem lookup_of_mem_nodup {x : String} {o : WorkerOutcome}
    (outs : List (String × WorkerOutcome))
    (hnd : (outs.map Prod.fst).Nodup) (h : (x, o) ∈ outs) :
    List.lookup x outs = some o := by
  induction outs with
  | nil => cases h
  | cons p rest ih =>
    rw [List.map_cons] at hnd
    obtain ⟨hp, hrest⟩ := List.nodup_cons.mp hnd
    rcases List.mem_cons.mp h with heq | hmem
    · subst heq
      simp
    · obtain ⟨p1, p2⟩ := p
      have hne : (x == p1) = false := by
        refine beq_eq_false_iff_ne.mpr ?_
        intro hxe
        have hx1 : x ∈ List.map Prod.fst rest :=
          List.mem_map_of_mem Prod.fst hmem
        exact hp (hxe ▸ hx1)
      rw [List.lookup_cons, hne]
      exact ih hrest hmem

/-- C2: on a batch with distinct ids in which some item `x` timed out on its
per-item `future.result(timeout=MAX_TRACK_TIMEOUT)` wait, the collect phase
persists `x` as `skipped` with the analysis-timeout reason and retry count
forced to `maxRetries`, and every row's final value is a function of its own
outcome alone (rows without an outcome are untouched), so the other items of
the batch reach their normal outcomes unaffected. -/
theorem processBatch_item_timeout (m : Nat) (now : Int)
    (outs : List (String × WorkerOutcome)) (db : List Track) (x : String)
    (hnd : (outs.map Prod.fst).Nodup) (hx : (x, .itemTimeout) ∈ outs) :
    (processBatch m now outs db =
      db.map (fun t =>
        match List.lookup t.id outs with
        | some o => rowFinalOutcome m now o t
        | none => t)) ∧
    (∀ t : Track, t.id = x → List.lookup t.id outs = some .itemTimeout) ∧
    (∀ t : Track, rowFinalOutcome m now .itemTimeout t =
      { t with analysisStatus := .skipped
               analysisError :=
                 some "Analysis timeout (file too large to process)"
               analysisRetryCount := some m
               updatedAt := now }) ∧
    (∀ t : Track, t.id ∉ outs.map Prod.fst →
      (match List.lookup t.id outs with
        | some o => rowFinalOutcome m now o t
        | none => t) = t) := by
  refine ⟨processBatch_pointwise m now outs db hnd, ?_, ?_, ?_⟩
  · intro t ht
    rw [ht]
    exact lookup_of_mem_nodup outs hnd hx
  · intro t
    have htr : truncate500 "Analysis timeout (file too large to process)"
        = "Analysis timeout (file too large to process)" := by decide
    simp [rowFinalOutcome, rowProcessOutcome, rowSaveFailed, htr]
  · intro t ht
    have : List.lookup t.id outs = none := by
      rw [List.lookup_eq_none_iff]
      intro p hp
      refine bne_iff_ne.mpr ?_
      intro he
      exact ht (he ▸ List.mem_map_of_mem Prod.fst hp)
    rw [this]

theorem processBatch_item_timeout_witness :
    processBatch 3 5 [("X", WorkerOutcome.itemTimeout)]
        [⟨"X", "f.mp3", 0, .processing, none, some 0, 1⟩]
      = [⟨"X", "f.mp3", 0, .skipped,
          some "Analysis timeout (file too large to process)", some 3, 5⟩] := by
  have h := processBatch_item_timeout 3 5 [("X", WorkerOutcome.itemTimeout)]
    [⟨"X", "f.mp3", 0, .processing, none, some 0, 1⟩] "X"
    (by decide) (by decide)
  rw [h.1]
  decide

/-- C8: on a batch with distinct ids, when the batch deadline fires every
still-outstanding item is persisted as a permanent skip with the
batch-timeout reason, and no outcome of the collect phase ever leaves a row
`processing` — so every item of the batch that has an outcome ends the
dispatch pass in a terminal or failed state, never `in_progress`. -/
theorem processBatch_deadline (m : Nat) (now : Int)
    (outs : List (String × WorkerOutcome)) (db : List Track)
    (hnd : (outs.map Prod.fst).Nodup) :
    (processBatch m now outs db =
      db.map (fun t =>
        match List.lookup t.id outs with
        | some o => rowFinalOutcome m now o t
        | none => t)) ∧
    (∀ x o, (x, o) ∈ outs → List.lookup x outs = some o) ∧
    (∀ t : Track, rowFinalOutcome m now .notDone t =
      { t with analysisStatus := .skipped
               analysisError := some "Batch timeout (file too large)"
               analysisRetryCount := some m
               updatedAt := now }) ∧
    (∀ (o : WorkerOutcome) (t : Track),
      (rowFinalOutcome m now o t).analysisStatus ≠ .processing) := by
  refine ⟨processBatch_pointwise m now outs db hnd, ?_, ?_, ?_⟩
  · intro x o hxo
    exact lookup_of_mem_nodup outs hnd hxo
  · intro t
    have htr : truncate500 "Batch timeout (file too large)"
        = "Batch timeout (file too large)" := by decide
    simp [rowFinalOutcome, rowSaveFailed, htr]
  · intro o t
    cases o with
    | finished d =>
      by_cases hd : hasError d
      · simp only [rowFinalOutcome, rowProcessOutcome, hd, if_true]
        unfold rowSaveFailed
        rw [if_pos rfl]
        split <;> simp
      · simp only [rowFinalOutcome, rowProcessOutcome, hd]
        simp [rowSaveResults]
    | itemTimeout => simp [rowFinalOutcome, rowProcessOutcome, rowSaveFailed]
    | poolError msg =>
      simp only [rowFinalOutcome, rowProcessOutcome]
      unfold rowSaveFailed
      rw [if_pos rfl]
      split <;> simp
    | notDone => simp [rowFinalOutcome, rowSaveFailed]

theorem processBatch_deadline_witness :
    processBatch 3 9
        [("X", WorkerOutcome.notDone),
         ("Y", WorkerOutcome.finished ⟨none, false, some 5⟩)]
        [⟨"X", "f.mp3", 0, .processing, none, some 0, 1⟩,
         ⟨"Y", "g.mp3", 0, .processing, none, some 0, 1⟩]
      = [⟨"X", "f.mp3", 0, .skipped,
           some "Batch timeout (file too large)", some 3, 9⟩,
         ⟨"Y", "g.mp3", 0, .completed, none, some 0, 9⟩] := by
  have h := processBatch_deadline 3 9
    [("X", WorkerOutcome.notDone),
     ("Y", WorkerOutcome.finished ⟨none, false, some 5⟩)]
    [⟨"X", "f.mp3", 0, .processing, none, some 0, 1⟩,
     ⟨"Y", "g.mp3", 0, .processing, none, some 0, 1⟩]
    (by decide)
  rw [h.1]
  decide

/-- The oversized-file message is never the empty string, so the dispatcher's
truthiness test on `'_error'` sees it. -/
theorem oversizedMsg_hasError (b mb : Nat) (sz : Option Nat) :
    hasError ⟨some (oversizedMsg b mb), true, sz⟩ = true := by
  simp only [hasError]
  refine bne_iff_ne.mpr ?_
  intro h
  have hl := congrArg String.length h
  simp only [oversizedMsg, String.length_append] at hl
  have h16 : ("File too large (" : String).length = 16 := by decide
  have h9a : (" bytes > " : String).length = 9 := by decide
  have h9b : ("MB limit)" : String).length = 9 := by decide
  have h0 : ("" : String).length = 0 := by decide
  rw [h16, h9a, h9b, h0] at hl
  omega

/-- C5 (counterexample): a missing input path yields the plain
`{"_error": "File not found"}` dict — no `'_skip'` flag — so the dispatcher
persists the item as retryable `failed` with the retry count incremented,
not as terminal `skipped` as the claim states. -/
theorem notFound_not_skipped_counterexample :
    ((analyzeTrackInProcess
        ⟨fun _ => false, fun _ => .ok 0, fun _ => .ok ⟨none⟩⟩
        ⟨"/music", "", 100⟩ "t1" "x.mp3").2.2
      = ⟨some "File not found", false, none⟩) ∧
    (processBatch 3 7
        [("t1", .finished ⟨some "File not found", false, none⟩)]
        [⟨"t1", "x.mp3", 0, .processing, none, some 0, 0⟩]
      = [⟨"t1", "x.mp3", 0, .failed, some "File not found", some 1, 7⟩]) ∧
    AnalysisStatus.failed ≠ AnalysisStatus.skipped := by
  refine ⟨by decide, by decide, by decide⟩

/-- C5 (amended): `OversizedInput`, per-item `AnalysisTimeout`, batch
timeout and `ResourceExhausted` (memory-signature) outcomes are
terminal-permanent (`skipped`), but `NotFound` is persisted as retryable
`failed` with the retry count incremented — it is *not* terminal. -/
theorem terminal_permanence_policy (m : Nat) (now : Int) :
    (∀ (env : WorkerEnv) (cfg : WorkerConfig) (tid fp : String),
      env.pathExists (resolvedPath env cfg fp) = false →
      (analyzeTrackInProcess env cfg tid fp).2.2
        = ⟨some "File not found", false, none⟩) ∧
    (∀ t : Track,
      rowFinalOutcome m now
          (.finished ⟨some "File not found", false, none⟩) t =
        { t with analysisStatus := .failed
                 analysisError := some "File not found"
                 analysisRetryCount := some (t.analysisRetryCount.getD 0 + 1)
                 updatedAt := now }) ∧
    (∀ (env : WorkerEnv) (cfg : WorkerConfig) (tid fp : String) (bytes : Nat),
      env.pathExists (resolvedPath env cfg fp) = true →
      env.getSize (resolvedPath env cfg fp) = .ok bytes →
      isOversized cfg.maxFileSizeMb bytes = true →
      (analyzeTrackInProcess env cfg tid fp).2.2
        = ⟨some (oversizedMsg bytes cfg.maxFileSizeMb), true, some bytes⟩) ∧
    (∀ (t : Track) (d : ResultDict), d.skip = true → hasError d = true →
      (rowFinalOutcome m now (.finished d) t).analysisStatus = .skipped) ∧
    (∀ t : Track,
      (rowFinalOutcome m now .itemTimeout t).analysisStatus = .skipped) ∧
    (∀ (t : Track) (msg : String), isMemoryError msg = true →
      (rowFinalOutcome m now (.poolError msg) t).analysisStatus = .skipped) ∧
    (∀ t : Track,
      (rowFinalOutcome m now .notDone t).analysisStatus = .skipped) := by
  refine ⟨?_, ?_, ?_, ?_, ?_, ?_, ?_⟩
  · intro env cfg tid fp hp
    simp [analyzeTrackInProcess, analyzeTrackBody, hp]
  · intro t
    have htr : truncate500 "File not found" = "File not found" := by decide
    have he : hasError ⟨some "File not found", false, none⟩ = true := by decide
    simp [rowFinalOutcome, rowProcessOutcome, he, rowSaveFailed, htr,
      Option.getD]
  · intro env cfg tid fp bytes hp hsz hov
    simp [analyzeTrackInProcess, analyzeTrackBody, hp, hsz, hov]
  · intro t d hskip herr
    simp [rowFinalOutcome, rowProcessOutcome, herr, rowSaveFailed, hskip]
  · intro t
    simp [rowFinalOutcome, rowProcessOutcome, rowSaveFailed]
  · intro t msg hmem
    simp [rowFinalOutcome, rowProcessOutcome, rowSaveFailed, hmem]
  · intro t
    simp [rowFinalOutcome, rowSaveFailed]

theorem terminal_permanence_policy_witness :
    (rowFinalOutcome 3 5 WorkerOutcome.itemTimeout
      ⟨"X", "f", 0, .processing, none, some 0, 1⟩).analysisStatus
      = AnalysisStatus.skipped :=
  (terminal_permanence_policy 3 5).2.2.2.2.1 _

/-- C10: the worker entry point is total at its boundary — it always returns
a `(track_id, file_path, dict)` triple echoing its inputs; a raised
exception anywhere in the body is converted into a dict carrying only an
`'_error'` string (never `'_skip'`); and `'_skip'` is set only on the
oversized-file branch: the resolved path exists, its size was read, and the
size exceeds the configured limit. -/
theorem analyzeTrack_total (env : WorkerEnv) (cfg : WorkerConfig)
    (trackId filePath : String) :
    ((analyzeTrackInProcess env cfg trackId filePath).1 = trackId) ∧
    ((analyzeTrackInProcess env cfg trackId filePath).2.1 = filePath) ∧
    (∀ e, analyzeTrackBody env cfg filePath = .error e →
      (analyzeTrackInProcess env cfg trackId filePath).2.2
        = ⟨some e, false, none⟩) ∧
    ((analyzeTrackInProcess env cfg trackId filePath).2.2.skip = true →
      env.pathExists (resolvedPath env cfg filePath) = true ∧
      ∃ bytes, env.getSize (resolvedPath env cfg filePath) = .ok bytes ∧
        isOversized cfg.maxFileSizeMb bytes = true ∧
        (analyzeTrackInProcess env cfg trackId filePath).2.2
          = ⟨some (oversizedMsg bytes cfg.maxFileSizeMb), true,
             some bytes⟩) := by
  refine ⟨?_, ?_, ?_, ?_⟩
  · cases h : analyzeTrackBody env cfg filePath <;>
      simp [analyzeTrackInProcess, h]
  · cases h : analyzeTrackBody env cfg filePath <;>
      simp [analyzeTrackInProcess, h]
  · intro e he
    simp [analyzeTrackInProcess, he]
  · intro hskip
    by_cases hex : env.pathExists (resolvedPath env cfg filePath) = true
    · cases hsz : env.getSize (resolvedPath env cfg filePath) with
      | error e =>
        simp [analyzeTrackInProcess, analyzeTrackBody, hex, hsz] at hskip
      | ok bytes =>
        by_cases hov : isOversized cfg.maxFileSizeMb bytes = true
        · refine ⟨hex, bytes, rfl, hov, ?_⟩
          simp [analyzeTrackInProcess, analyzeTrackBody, hex, hsz, hov]
        · cases han : env.analyze (resolvedPath env cfg filePath) with
          | error e =>
            simp [analyzeTrackInProcess, analyzeTrackBody, hex, hsz, hov,
              han] at hskip
          | ok a =>
            simp [analyzeTrackInProcess, analyzeTrackBody, hex, hsz, hov,
              han] at hskip
    · rw [Bool.not_eq_true] at hex
      simp [analyzeTrackInProcess, analyzeTrackBody, hex] at hskip

theorem analyzeTrack_total_witness :
    (analyzeTrackInProcess
      ⟨fun _ => true, fun _ => .ok 7, fun _ => .ok ⟨none⟩⟩
      ⟨"/music", "", 100⟩ "t1" "a.mp3").1 = "t1" :=
  (analyzeTrack_total ⟨fun _ => true, fun _ => .ok 7, fun _ => .ok ⟨none⟩⟩
    ⟨"/music", "", 100⟩ "t1" "a.mp3").1

/-!  C7: the trace below reaches, using only the modelled operations from a
single freshly-created `pending` row, a store on which a permanent
`_save_failed` *decreases* the retry count.  Duplicate queue entries for the
same id survive the post-claim filter (`analyzer.py:1233` filters by
membership in `valid_track_ids`, keeping duplicates), so one collect phase
can save the same id several times: two retryable failures push the count to
`maxRetries + 1`, and a subsequent permanent save writes it back down to
`maxRetries`. -/

/-- One track, freshly created: `pending`, retry count 0. -/
def dbC7Start : List Track := [⟨"X", "f.mp3", 0, .pending, none, some 0, 0⟩]

/-- Two claim → retryable-failure → requeue cycles: `pending` with retry
count 2 (still under `maxRetries = 3`). -/
def dbC7Requeued : List Track :=
  (retryFailedTracks 3 6
    (processBatch 3 5 [("X", .poolError "boom")]
      (claimPending ["X"] 4
        (retryFailedTracks 3 3
          (processBatch 3 2 [("X", .poolError "boom")]
            (claimPending ["X"] 1 dbC7Start).1)).1).1)).1

/-- Claimed for a batch that holds three duplicate descriptors for `"X"`. -/
def dbC7Claimed : List Track := (claimPending ["X"] 7 dbC7Requeued).1

/-- After the first two duplicate futures fail retryably within one collect
phase: retry count 4 > maxRetries = 3. -/
def dbC7Dup : List Track :=
  saveFailed 3 "X" "Error: boom again" false 8
    (saveFailed 3 "X" "Error: boom" false 8 dbC7Claimed)

/-- C7 (counterexample): on the reachable store `dbC7Dup` the row's retry
count is 4, and the permanent save the third duplicate future (a per-item
timeout) triggers lowers it to 3 — an operation *decreased* `retryCount`.
The last conjunct checks the whole duplicate collect phase really is that
save chain. -/
theorem retryCount_decrease_counterexample :
    (dbC7Dup = [⟨"X", "f.mp3", 0, .failed, some "Error: boom again",
                 some 4, 8⟩]) ∧
    (saveFailed 3 "X" "Analysis timeout (file too large to process)" true 8
        dbC7Dup
      = [⟨"X", "f.mp3", 0, .skipped,
          some "Analysis timeout (file too large to process)", some 3, 8⟩]) ∧
    (processBatch 3 8
        [("X", .poolError "boom"), ("X", .poolError "boom again"),
         ("X", .itemTimeout)] dbC7Claimed
      = saveFailed 3 "X" "Analysis timeout (file too large to process)" true 8
          dbC7Dup) ∧
    (3 < 4) := by
  refine ⟨by decide, by decide, by decide, by decide⟩

/-- C7 (amended): `_retry_failed_tracks` moves back to `pending` (clearing
the error) exactly the rows whose status is `failed` with retry count
strictly below `maxRetries`; a row at or above the ceiling is never
re-included and a `skipped` row is never requeued regardless of its count;
requeue, stale-reclaim, claim and success recording never change
`retryCount`; and `_save_failed` never decreases a retry count that is
within the ceiling (it can lower one only when duplicate batch entries have
already pushed it past `maxRetries`, as in the counterexample). -/
theorem retryFailedTracks_spec (m : Nat) :
    (∀ (now : Int) (db : List Track) (x : String),
      x ∈ (retryFailedTracks m now db).2 ↔
        ∃ t ∈ db, t.id = x ∧ t.analysisStatus = .failed ∧
          t.analysisRetryCount.getD 0 < m) ∧
    (∀ (now : Int) (db : List Track),
      (retryFailedTracks m now db).1 = db.map (rowRetryFailed m now)) ∧
    (∀ (now : Int) (t : Track), t.analysisStatus = .failed →
      t.analysisRetryCount.getD 0 < m →
      rowRetryFailed m now t =
        { t with analysisStatus := .pending
                 analysisError := none
                 updatedAt := now }) ∧
    (∀ (now : Int) (t : Track), t.analysisStatus = .skipped →
      rowRetryFailed m now t = t) ∧
    (∀ (now : Int) (t : Track), m ≤ t.analysisRetryCount.getD 0 →
      rowRetryFailed m now t = t) ∧
    (∀ (now : Int) (t : Track),
      (rowRetryFailed m now t).analysisRetryCount = t.analysisRetryCount) ∧
    (∀ (w now : Int) (t : Track),
      (rowCleanupStale w now t).analysisRetryCount = t.analysisRetryCount) ∧
    (∀ (ids : List String) (now : Int) (t : Track),
      (rowClaim ids now t).analysisRetryCount = t.analysisRetryCount) ∧
    (∀ (x : String) (now : Int) (t : Track),
      (rowSaveResults x now t).analysisRetryCount = t.analysisRetryCount) ∧
    (∀ (x e : String) (p : Bool) (now : Int) (t : Track),
      t.analysisRetryCount.getD 0 ≤ m →
      t.analysisRetryCount.getD 0 ≤
        (rowSaveFailed m x e p now t).analysisRetryCount.getD 0) := by
  refine ⟨?_, fun _ _ => rfl, ?_, ?_, ?_, ?_, ?_, ?_, ?_, ?_⟩
  · intro now db x
    simp only [retryFailedTracks, List.mem_map, List.mem_filter,
      Bool.and_eq_true, decide_eq_true_eq, beq_iff_eq]
    constructor
    · rintro ⟨t, ⟨htdb, htf, htc⟩, rfl⟩
      exact ⟨t, htdb, rfl, htf, htc⟩
    · rintro ⟨t, htdb, rfl, htf, htc⟩
      exact ⟨t, ⟨htdb, htf, htc⟩, rfl⟩
  · intro now t h1 h2
    unfold rowRetryFailed
    rw [if_pos ⟨h1, h2⟩]
  · intro now t hs
    unfold rowRetryFailed
    rw [if_neg]
    intro hc
    rw [hs] at hc
    exact absurd hc.1 (by simp)
  · intro now t hm
    unfold rowRetryFailed
    rw [if_neg]
    intro hc
    omega
  · intro now t
    unfold rowRetryFailed
    split <;> rfl
  · intro w now t
    unfold rowCleanupStale
    split <;> rfl
  · intro ids now t
    unfold rowClaim
    split <;> rfl
  · intro x now t
    unfold rowSaveResults
    split <;> rfl
  · intro x e p now t hle
    unfold rowSaveFailed
    split
    · split
      · simpa using hle
      · simp
    · exact le_refl _

theorem retryFailedTracks_spec_witness :
    rowRetryFailed 3 9 ⟨"X", "f", 0, .failed, some "e", some 1, 2⟩
      = ⟨"X", "f", 0, .pending, none, some 1, 9⟩ :=
  (retryFailedTracks_spec 3).2.2.1 9 _ rfl (by decide)
